import Mathlib

/-!
# Verification of the per-connection HTTP request pipeline

Shallow embedding of `core/src/server/net/connection.cpp` (namespace
`server::net`): the reader task (`ListenForRequests` / `NewRequest`), the
writer task (`ProcessResponses` / `HandleQueueItem` / `SendResponse`), the
writer's two-pass drain in `Connection::Start`, and `Connection::Shutdown`.

The single-producer/single-consumer queue (`request_tasks_`) is modelled as a
`List` field of the connection state: `producer.Push` appends, `consumer.Pop`
takes the head.  External collaborators are modelled by the outcome they
deliver to the connection code: a handler task carries the result its `Get()`
reports (`HandlerOutcome`), and a response carries the behaviour of its
`SendResponse(socket)` call (`SendOutcome`).  The `incLog` / `decLog` /
`sendCalls` fields are ghost instrumentation recording, in order, each
`++stats_->active_request_count`, `--stats_->active_request_count`, and each
invocation of `response.SendResponse(peer_socket_)`.
-/

namespace ServerNet

/-- Log levels distinguished by the connection code (`logging::Level`). -/
inductive LogLevel
  | warning
  | error
deriving DecidableEq, Repr

/-- Raw `errno` value of `std::errc::connection_reset` (ECONNRESET). -/
def connection_reset : Nat := 104

/-- Raw `errno` value of `std::errc::broken_pipe` (EPIPE). -/
def broken_pipe : Nat := 32

/-- Result the handler task delivers when the writer `Get()`s it
(`request_task.Get()` in `HandleQueueItem`). -/
inductive HandlerOutcome
  | success
  | taskCancelled      -- throws engine::TaskCancelledException
  | waitInterrupted    -- throws engine::WaitInterruptedException
  | otherException     -- throws some other std::exception
deriving DecidableEq, Repr

/-- Behaviour of `response.SendResponse(peer_socket_)` when the writer invokes
it: completes and marks the response sent, or throws before marking it. -/
inductive SendOutcome
  | ok
  | ioSystemError (code : Nat)   -- engine::io::IoSystemError with raw errno
  | otherException               -- some other std::exception
deriving DecidableEq, Repr

/-- Immutable description of one parsed request, together with the behaviour
of its external collaborators (handler task result, response send result). -/
structure Request where
  id : Nat
  isFinal : Bool
  handlerOutcome : HandlerOutcome
  sendOutcome : SendOutcome
deriving DecidableEq, Repr

/-- Mutable response state (`request::ResponseBase`): `is_sent_` is set by a
completed `SendResponse`, `send_failed_` by `SetSendFailed`. -/
structure Response where
  isSent : Bool := false
  sendFailed : Bool := false
  isInternalServerError : Bool := false
deriving DecidableEq, Repr

/-- A `QueueItem`: the request (with its response slot and send timestamps)
paired with its handler task.  Created by `NewRequest`, moved through the
queue, consumed by the writer. -/
structure Slot where
  req : Request
  response : Response := {}
  startSendTimeSet : Bool := false
  finishSendTimeSet : Bool := false
  accessLogsWritten : Bool := false
deriving DecidableEq, Repr

/-- Connection state: the fields of `Connection` the pipeline code reads and
writes, the shared `Stats` counters, and the SPSC queue contents.
`queueClosed` models the consumer side having been dropped, which makes
`producer.Push` fail. -/
structure St where
  isAcceptingRequests : Bool := true
  isResponseChainValid : Bool := true
  queue : List Slot := []
  queueClosed : Bool := false
  socketOpen : Bool := true
  activeConnections : Int := 1
  connectionsClosed : Nat := 0
  activeRequestCount : Int := 0
  requestsProcessedCount : Nat := 0
  onCloseCount : Nat := 0
  incLog : List Nat := []
  decLog : List Nat := []
  sendCalls : List Nat := []
deriving DecidableEq, Repr

/-- `Connection::NewRequest`: drop the request if `is_accepting_requests_` is
already false; otherwise clear the flag when the request `IsFinal()`,
increment `active_request_count`, and `producer.Push` a fresh `QueueItem`
(request plus started handler task).  Returns the `Push` result. -/
def NewRequest (s : St) (r : Request) : St × Bool :=
  if !s.isAcceptingRequests then
    (s, true)
  else
    let s := if r.isFinal then { s with isAcceptingRequests := false } else s
    let s := { s with
      activeRequestCount := s.activeRequestCount + 1,
      incLog := s.incLog ++ [r.id] }
    if s.queueClosed then
      (s, false)
    else
      ({ s with queue := s.queue ++ [{ req := r }] }, true)

/-- The parser sink installed in `ListenForRequests`: call `NewRequest`, and
on a failed push set `is_accepting_requests_` to false. -/
def onRequestSink (s : St) (r : Request) : St :=
  let (s, ok) := NewRequest s r
  if ok then s else { s with isAcceptingRequests := false }

/-- `request_parser.Parse(buf, bytes_read)`: the parser invokes the sink once
per complete request found in the buffer, in order. -/
def parseBuffer (s : St) (rs : List Request) : St :=
  rs.foldl onRequestSink s

/-- One socket read observed by the reader loop: either data (the requests
the parser finds in it, plus the parser's return value) or a terminal
condition of `RecvSome`. -/
inductive RecvEvent
  | data (requests : List Request) (parseOk : Bool)
  | closed                      -- RecvSome returns 0: peer half-close
  | ioCancelled                 -- RecvSome throws engine::io::IoCancelled
  | ioSystemError (code : Nat)  -- RecvSome throws engine::io::IoSystemError
  | otherException              -- RecvSome throws some other std::exception
deriving DecidableEq, Repr

/-- How `ListenForRequests` exited. `graceful` is the fall-through when the
`while (is_accepting_requests_)` condition fails (malformed input, final
request, or failed push): the only path that calls `send_stopper.Release()`.
`running` means the event script ended with the loop still blocked in
`RecvSome`. -/
inductive ReaderExit
  | running
  | halfClose                   -- return after 0-byte read
  | graceful                    -- loop condition false; Release() called
  | ioCancelled
  | ioSystemError (code : Nat)
  | otherException
deriving DecidableEq, Repr

/-- The `while (is_accepting_requests_)` loop of `ListenForRequests`, driven
by a script of socket reads. -/
def listenLoop (s : St) : List RecvEvent → St × ReaderExit
  | [] => if s.isAcceptingRequests then (s, .running) else (s, .graceful)
  | ev :: rest =>
    if !s.isAcceptingRequests then
      (s, .graceful)
    else
      match ev with
      | .closed => (s, .halfClose)
      | .ioCancelled => (s, .ioCancelled)
      | .ioSystemError code => (s, .ioSystemError code)
      | .otherException => (s, .otherException)
      | .data rs parseOk =>
        let s := parseBuffer s rs
        let s :=
          if parseOk then s else { s with isAcceptingRequests := false }
        listenLoop s rest

/-- Whether the `send_stopper` scope guard runs on a given exit: it fires on
every path except `graceful`, where `send_stopper.Release()` disarmed it
(`running` means no exit happened yet). -/
def guardFires : ReaderExit → Bool
  | .graceful => false
  | .running => false
  | _ => true

/-- Log emitted by the catch clauses of `ListenForRequests`: `IoCancelled` is
only traced; `IoSystemError` logs at warning iff the raw code equals
`connection_reset`, else at error; any other `std::exception` logs at error. -/
def readerCatchLogLevel : ReaderExit → Option LogLevel
  | .ioSystemError code =>
    some (if code = connection_reset then .warning else .error)
  | .otherException => some .error
  | _ => none

/-- Outcome of the whole reader task. `writerCancelRequested` records whether
the scope guard called `response_sender_task_.RequestCancel()` (it does so
whenever it fires, after `response_sender_launched_event_` was sent, which
`Connection::Start` guarantees). -/
structure ReaderOutcome where
  state : St
  exit : ReaderExit
  writerCancelRequested : Bool
  log : Option LogLevel
deriving DecidableEq, Repr

/-- `Connection::ListenForRequests`: run the receive loop; every exception is
caught and logged (the function is `noexcept` and always returns normally);
the scope guard requests cancellation of the writer unless it was released. -/
def ListenForRequests (s : St) (evs : List RecvEvent) : ReaderOutcome :=
  let r := listenLoop s evs
  { state := r.1
    exit := r.2
    writerCancelRequested := guardFires r.2
    log := readerCatchLogLevel r.2 }

/-- `Connection::HandleQueueItem`: if the writer's cancellation token is
tripped, `SyncCancel` the handler and invalidate the response chain; else
`Get()` the handler task: a `TaskCancelledException` or
`WaitInterruptedException` invalidates the chain, any other exception marks
the request as an internal server error, success changes nothing.  Returns
the updated state and slot (the slot proceeds to `SendResponse` either way). -/
def HandleQueueItem (cancelRequested : Bool) (s : St) (slot : Slot) :
    St × Slot :=
  if cancelRequested then
    ({ s with isResponseChainValid := false }, slot)
  else
    match slot.req.handlerOutcome with
    | .success => (s, slot)
    | .taskCancelled => ({ s with isResponseChainValid := false }, slot)
    | .waitInterrupted => ({ s with isResponseChainValid := false }, slot)
    | .otherException =>
      (s, { slot with
        response := { slot.response with isInternalServerError := true } })

/-- `Connection::SendResponse`: record the start-send time; if the response
chain is valid and the socket is open, invoke `response.SendResponse` —
an `IoSystemError` is logged (warning iff `broken_pipe`, else error) and
nothing more, any other exception is logged at error and the response is
marked send-failed; otherwise mark the response send-failed without I/O.
Then record the finish-send time, decrement `active_request_count`,
increment `requests_processed_count`, and write the access logs. -/
def SendResponse (s : St) (slot : Slot) : St × Slot × Option LogLevel :=
  let slot := { slot with startSendTimeSet := true }
  let (s, slot, log) :=
    if s.isResponseChainValid && s.socketOpen then
      let s := { s with sendCalls := s.sendCalls ++ [slot.req.id] }
      match slot.req.sendOutcome with
      | .ok =>
        (s, { slot with response := { slot.response with isSent := true } },
          none)
      | .ioSystemError code =>
        (s, slot,
          some (if code = broken_pipe then LogLevel.warning else .error))
      | .otherException =>
        (s, { slot with response := { slot.response with sendFailed := true } },
          some .error)
    else
      (s, { slot with response := { slot.response with sendFailed := true } },
        none)
  let slot := { slot with finishSendTimeSet := true, accessLogsWritten := true }
  let s := { s with
    activeRequestCount := s.activeRequestCount - 1,
    requestsProcessedCount := s.requestsProcessedCount + 1,
    decLog := s.decLog ++ [slot.req.id] }
  (s, slot, log)

/-- Record of one writer loop iteration: the slot as popped, the slot as
passed to `SendResponse` (the point of `UASSERT(!response.IsSent())`), and
the slot after `SendResponse`. -/
structure ProcessedItem where
  popped : Slot
  sendEntry : Slot
  sendExit : Slot
  sendLog : Option LogLevel
deriving DecidableEq, Repr

/-- One iteration of the `ProcessResponses` loop body on a popped item:
`HandleQueueItem`, then — under `engine::TaskCancellationBlocker` —
`SendResponse`. -/
def handlePoppedItem (cancelRequested : Bool) (s : St) (slot : Slot) :
    St × ProcessedItem :=
  let (s, entry) := HandleQueueItem cancelRequested s slot
  let (s, exit, log) := SendResponse s entry
  (s, { popped := slot, sendEntry := entry, sendExit := exit, sendLog := log })

/-- `Connection::ProcessResponses`: pop items from the queue and process each
in turn.  `cancel i` gives the writer task's cancellation token at the i-th
pop overall (it is tripped by `Connection::Stop` or by the reader's scope
guard and never reset); `fuel` bounds how many pops this call performs before
`consumer.Pop` returns false — a cancelled `Pop` on an empty queue fails even
though the producer may push again later, which is why `Connection::Start`
runs a second draining call. -/
def ProcessResponses (cancel : Nat → Bool) : Nat → Nat → St →
    St × List ProcessedItem
  | _, 0, s => (s, [])
  | i, fuel + 1, s =>
    match s.queue with
    | [] => (s, [])
    | slot :: rest =>
      let step := handlePoppedItem (cancel i) { s with queue := rest } slot
      let next := ProcessResponses cancel (i + 1) fuel step.1
      (next.1, step.2 :: next.2)

/-- The individual steps of `Connection::Shutdown`, in program order. -/
inductive ShutdownStep
  | closeSocket
  | updateConnectionCounters      -- --active_connections; ++connections_closed
  | invokeOnClose
  | assertQueueEmpty (wasEmpty : Bool)   -- UASSERT(IsRequestTasksEmpty())
  | detachWriterTask
deriving DecidableEq, Repr

/-- `Connection::Shutdown`: close the peer socket, decrement
`active_connections` and increment `connections_closed`, invoke the
`close_cb_` if one was set, assert the queue is empty, then detach the
writer task handle.  Returns the updated state and the steps in order. -/
def Shutdown (hasCloseCb : Bool) (s : St) : St × List ShutdownStep :=
  let s := { s with socketOpen := false }
  let s := { s with
    activeConnections := s.activeConnections - 1,
    connectionsClosed := s.connectionsClosed + 1 }
  let s := if hasCloseCb then { s with onCloseCount := s.onCloseCount + 1 } else s
  let steps := [ShutdownStep.closeSocket, .updateConnectionCounters]
    ++ (if hasCloseCb then [ShutdownStep.invokeOnClose] else [])
    ++ [ShutdownStep.assertQueueEmpty (s.queue.length == 0), .detachWriterTask]
  (s, steps)

/-- The writer task body spawned by `Connection::Start`: a first
`ProcessResponses` (which may stop after `k` pops when its `Pop` is
interrupted by cancellation), then `socket_listener.SyncCancel()` (the reader
has already finished in this sequential model), then a second
`ProcessResponses` that consumes every remaining request, then `Shutdown`. -/
def writerTask (cancel : Nat → Bool) (k : Nat) (hasCloseCb : Bool) (s : St) :
    St × List ProcessedItem × List ShutdownStep :=
  let pass1 := ProcessResponses cancel 0 k s
  let pass2 :=
    ProcessResponses cancel pass1.2.length pass1.1.queue.length pass1.1
  let final := Shutdown hasCloseCb pass2.1
  (final.1, pass1.2 ++ pass2.2, final.2)

/-- A whole connection: the reader consumes its receive script and fills the
queue, then the writer drains it and shuts the connection down.  `cancel`
is the writer's cancellation token per pop, `k` the pop at which the first
`ProcessResponses` is cut short. -/
def connectionRun (evs : List RecvEvent) (cancel : Nat → Bool) (k : Nat)
    (hasCloseCb : Bool) : ReaderOutcome × St × List ProcessedItem × List ShutdownStep :=
  let reader := ListenForRequests {} evs
  (reader, writerTask cancel k hasCloseCb reader.state)

/-! ## Helper lemmas: the reader -/

/-- Ids of the slots currently in the queue, in FIFO order. -/
def queueIds (s : St) : List Nat :=
  s.queue.map fun sl => sl.req.id

/-- Ids of all requests the parser delivers over a receive script, in parse
order. -/
def parsedIds : List RecvEvent → List Nat
  | [] => []
  | .data rs _ :: rest => (rs.map fun r => r.id) ++ parsedIds rest
  | _ :: rest => parsedIds rest

theorem NewRequest_not_accepting (s : St) (r : Request)
    (h : s.isAcceptingRequests = false) : NewRequest s r = (s, true) := by
  simp [NewRequest, h]

theorem NewRequest_accepting_open (s : St) (r : Request)
    (ha : s.isAcceptingRequests = true) (hq : s.queueClosed = false) :
    NewRequest s r =
      ({ s with
          isAcceptingRequests := !r.isFinal,
          activeRequestCount := s.activeRequestCount + 1,
          incLog := s.incLog ++ [r.id],
          queue := s.queue ++ [{ req := r }] }, true) := by
  cases hf : r.isFinal <;> simp [NewRequest, ha, hq, hf]

theorem NewRequest_accepting_closed (s : St) (r : Request)
    (ha : s.isAcceptingRequests = true) (hq : s.queueClosed = true) :
    NewRequest s r =
      ({ s with
          isAcceptingRequests := !r.isFinal,
          activeRequestCount := s.activeRequestCount + 1,
          incLog := s.incLog ++ [r.id] }, false) := by
  cases hf : r.isFinal <;> simp [NewRequest, ha, hq, hf]

theorem onRequestSink_not_accepting (s : St) (r : Request)
    (h : s.isAcceptingRequests = false) : onRequestSink s r = s := by
  simp [onRequestSink, NewRequest_not_accepting s r h]

theorem parseBuffer_not_accepting (s : St) (rs : List Request)
    (h : s.isAcceptingRequests = false) : parseBuffer s rs = s := by
  induction rs with
  | nil => rfl
  | cons r rs ih =>
    simpa [parseBuffer, onRequestSink_not_accepting s r h]
      using ih

/-- State facts maintained throughout the reader phase (starting from the
freshly-created connection): the queue is open, the writer-owned fields are
untouched, `incLog` mirrors the queue contents (every accepted request was
pushed, and vice versa), `active_request_count` equals the number of
increments, and every queued slot is fresh (empty response, no timestamps). -/
def ReaderInv (s : St) : Prop :=
  s.queueClosed = false ∧
  s.isResponseChainValid = true ∧
  s.socketOpen = true ∧
  s.decLog = [] ∧
  s.sendCalls = [] ∧
  s.requestsProcessedCount = 0 ∧
  s.activeConnections = 1 ∧
  s.connectionsClosed = 0 ∧
  s.onCloseCount = 0 ∧
  s.incLog = queueIds s ∧
  s.activeRequestCount = (s.incLog.length : Int) ∧
  ∀ sl ∈ s.queue, sl = { req := sl.req }

theorem ReaderInv_init : ReaderInv {} := by
  simp [ReaderInv, queueIds]

theorem onRequestSink_preserves (s : St) (r : Request) (h : ReaderInv s) :
    ReaderInv (onRequestSink s r) := by
  by_cases ha : s.isAcceptingRequests = true
  · have hq : s.queueClosed = false := h.1
    simp only [onRequestSink, NewRequest_accepting_open s r ha hq]
    obtain ⟨h1, h2, h3, h4, h5, h6, h7, h8, h9, h10, h11, h12⟩ := h
    refine ⟨h1, h2, h3, h4, h5, h6, h7, h8, h9, ?_, ?_, ?_⟩
    · simp [queueIds] at h10 ⊢
      exact h10
    · simp [h11]
    · intro sl hsl
      rcases List.mem_append.mp hsl with hmem | hmem
      · exact h12 sl hmem
      · simp at hmem
        simp [hmem]
  · have ha' : s.isAcceptingRequests = false := by
      simpa using ha
    simpa [onRequestSink_not_accepting s r ha'] using h

theorem parseBuffer_preserves (s : St) (rs : List Request) (h : ReaderInv s) :
    ReaderInv (parseBuffer s rs) := by
  induction rs generalizing s with
  | nil => exact h
  | cons r rs ih =>
    exact ih (onRequestSink s r) (onRequestSink_preserves s r h)

theorem listenLoop_nil (s : St) :
    listenLoop s [] =
      if s.isAcceptingRequests then (s, .running) else (s, .graceful) := rfl

theorem listenLoop_cons_not_accepting (s : St) (ev : RecvEvent)
    (rest : List RecvEvent) (h : s.isAcceptingRequests = false) :
    listenLoop s (ev :: rest) = (s, .graceful) := by
  cases ev <;> simp [listenLoop, h]

theorem listenLoop_data_ok (s : St) (rs : List Request)
    (rest : List RecvEvent) (ha : s.isAcceptingRequests = true) :
    listenLoop s (.data rs true :: rest) =
      listenLoop (parseBuffer s rs) rest := by
  simp [listenLoop, ha]

theorem listenLoop_data_bad (s : St) (rs : List Request)
    (rest : List RecvEvent) (ha : s.isAcceptingRequests = true) :
    listenLoop s (.data rs false :: rest) =
      listenLoop { parseBuffer s rs with isAcceptingRequests := false }
        rest := by
  simp [listenLoop, ha]

theorem listenLoop_closed (s : St) (rest : List RecvEvent)
    (ha : s.isAcceptingRequests = true) :
    listenLoop s (.closed :: rest) = (s, .halfClose) := by
  simp [listenLoop, ha]

theorem listenLoop_ioCancelled (s : St) (rest : List RecvEvent)
    (ha : s.isAcceptingRequests = true) :
    listenLoop s (.ioCancelled :: rest) = (s, .ioCancelled) := by
  simp [listenLoop, ha]

theorem listenLoop_ioSystemError (s : St) (code : Nat) (rest : List RecvEvent)
    (ha : s.isAcceptingRequests = true) :
    listenLoop s (.ioSystemError code :: rest) = (s, .ioSystemError code) := by
  simp [listenLoop, ha]

theorem listenLoop_otherException (s : St) (rest : List RecvEvent)
    (ha : s.isAcceptingRequests = true) :
    listenLoop s (.otherException :: rest) = (s, .otherException) := by
  simp [listenLoop, ha]

theorem ReaderInv_clear_accepting (s : St) (h : ReaderInv s) :
    ReaderInv { s with isAcceptingRequests := false } := by
  simpa [ReaderInv, queueIds] using h

theorem listenLoop_preserves (s : St) (evs : List RecvEvent)
    (h : ReaderInv s) : ReaderInv (listenLoop s evs).1 := by
  induction evs generalizing s with
  | nil =>
    rw [listenLoop_nil]
    by_cases ha : s.isAcceptingRequests <;> simp [ha, h]
  | cons ev rest ih =>
    by_cases ha : s.isAcceptingRequests = true
    · cases ev with
      | data rs parseOk =>
        cases parseOk with
        | true =>
          rw [listenLoop_data_ok s rs rest ha]
          exact ih _ (parseBuffer_preserves s rs h)
        | false =>
          rw [listenLoop_data_bad s rs rest ha]
          exact ih _
            (ReaderInv_clear_accepting _ (parseBuffer_preserves s rs h))
      | closed => rw [listenLoop_closed s rest ha]; exact h
      | ioCancelled => rw [listenLoop_ioCancelled s rest ha]; exact h
      | ioSystemError code =>
        rw [listenLoop_ioSystemError s code rest ha]; exact h
      | otherException => rw [listenLoop_otherException s rest ha]; exact h
    · have ha' : s.isAcceptingRequests = false := by simpa using ha
      rw [listenLoop_cons_not_accepting s ev rest ha']
      exact h

theorem ListenForRequests_preserves (evs : List RecvEvent) :
    ReaderInv (ListenForRequests {} evs).state := by
  simpa [ListenForRequests] using
    listenLoop_preserves {} evs ReaderInv_init

theorem parseBuffer_queue_delta (s : St) (rs : List Request) :
    ∃ d, (parseBuffer s rs).queue = s.queue ++ d ∧
      (d.map fun sl => sl.req.id).Sublist (rs.map fun r => r.id) := by
  induction rs generalizing s with
  | nil => exact ⟨[], by simp [parseBuffer]⟩
  | cons r rs ih =>
    have step : parseBuffer s (r :: rs) = parseBuffer (onRequestSink s r) rs :=
      rfl
    by_cases ha : s.isAcceptingRequests = true
    · by_cases hq : s.queueClosed = true
      · have hsink : (onRequestSink s r).queue = s.queue := by
          simp [onRequestSink, NewRequest_accepting_closed s r ha hq]
        obtain ⟨d, hd, hsub⟩ := ih (onRequestSink s r)
        exact ⟨d, by rw [step, hd, hsink], hsub.cons _⟩
      · have hq' : s.queueClosed = false := by simpa using hq
        have hsink : (onRequestSink s r).queue = s.queue ++ [{ req := r }] := by
          simp [onRequestSink, NewRequest_accepting_open s r ha hq']
        obtain ⟨d, hd, hsub⟩ := ih (onRequestSink s r)
        refine ⟨{ req := r } :: d, ?_, ?_⟩
        · rw [step, hd, hsink]
          simp
        · simpa using hsub.cons₂ r.id
    · have ha' : s.isAcceptingRequests = false := by simpa using ha
      have hsink : onRequestSink s r = s := onRequestSink_not_accepting s r ha'
      obtain ⟨d, hd, hsub⟩ := ih (onRequestSink s r)
      exact ⟨d, by rw [step, hd, hsink], hsub.cons _⟩

theorem listenLoop_queue_delta (s : St) (evs : List RecvEvent) :
    ∃ d, (listenLoop s evs).1.queue = s.queue ++ d ∧
      (d.map fun sl => sl.req.id).Sublist (parsedIds evs) := by
  induction evs generalizing s with
  | nil =>
    refine ⟨[], ?_, by simp⟩
    rw [listenLoop_nil]
    by_cases ha : s.isAcceptingRequests <;> simp [ha]
  | cons ev rest ih =>
    by_cases ha : s.isAcceptingRequests = true
    · cases ev with
      | data rs parseOk =>
        obtain ⟨d1, hd1, hsub1⟩ := parseBuffer_queue_delta s rs
        cases parseOk with
        | true =>
          obtain ⟨d2, hd2, hsub2⟩ := ih (parseBuffer s rs)
          refine ⟨d1 ++ d2, ?_, ?_⟩
          · rw [listenLoop_data_ok s rs rest ha, hd2, hd1, List.append_assoc]
          · simpa [parsedIds] using hsub1.append hsub2
        | false =>
          obtain ⟨d2, hd2, hsub2⟩ :=
            ih { parseBuffer s rs with isAcceptingRequests := false }
          refine ⟨d1 ++ d2, ?_, ?_⟩
          · rw [listenLoop_data_bad s rs rest ha, hd2]
            show (parseBuffer s rs).queue ++ d2 = s.queue ++ (d1 ++ d2)
            rw [hd1, List.append_assoc]
          · simpa [parsedIds] using hsub1.append hsub2
      | closed =>
        exact ⟨[], by rw [listenLoop_closed s rest ha]; simp, by simp⟩
      | ioCancelled =>
        exact ⟨[], by rw [listenLoop_ioCancelled s rest ha]; simp, by simp⟩
      | ioSystemError code =>
        exact ⟨[],
          by rw [listenLoop_ioSystemError s code rest ha]; simp, by simp⟩
      | otherException =>
        exact ⟨[], by rw [listenLoop_otherException s rest ha]; simp, by simp⟩
    · have ha' : s.isAcceptingRequests = false := by simpa using ha
      exact ⟨[],
        by rw [listenLoop_cons_not_accepting s ev rest ha']; simp, by simp⟩

/-! ## Helper lemmas: the writer -/

/-- What one writer iteration does to the state and to the slot: the queue,
`incLog` and the reader/connection fields are untouched; `decLog` records the
decrement; `active_request_count` drops by one and `requests_processed_count`
rises by one; `sendCalls` grows by the slot's id or not at all; the slot
reaches the send path with its request and its `isSent` / `sendFailed` flags
exactly as popped; and the final response is the entry response with `isSent`
set (send completed), or with `sendFailed` set, or — only when
`response.SendResponse` threw an `IoSystemError` — unchanged. -/
theorem handlePoppedItem_spec (c : Bool) (s : St) (slot : Slot) :
    (handlePoppedItem c s slot).1.queue = s.queue ∧
    (handlePoppedItem c s slot).1.incLog = s.incLog ∧
    (handlePoppedItem c s slot).1.decLog = s.decLog ++ [slot.req.id] ∧
    (handlePoppedItem c s slot).1.isAcceptingRequests
      = s.isAcceptingRequests ∧
    (handlePoppedItem c s slot).1.socketOpen = s.socketOpen ∧
    (handlePoppedItem c s slot).1.queueClosed = s.queueClosed ∧
    (handlePoppedItem c s slot).1.activeConnections = s.activeConnections ∧
    (handlePoppedItem c s slot).1.connectionsClosed = s.connectionsClosed ∧
    (handlePoppedItem c s slot).1.onCloseCount = s.onCloseCount ∧
    (handlePoppedItem c s slot).1.activeRequestCount
      = s.activeRequestCount - 1 ∧
    (handlePoppedItem c s slot).1.requestsProcessedCount
      = s.requestsProcessedCount + 1 ∧
    ((handlePoppedItem c s slot).1.sendCalls = s.sendCalls ∨
      (handlePoppedItem c s slot).1.sendCalls
        = s.sendCalls ++ [slot.req.id]) ∧
    (handlePoppedItem c s slot).2.popped = slot ∧
    (handlePoppedItem c s slot).2.sendEntry.req = slot.req ∧
    (handlePoppedItem c s slot).2.sendEntry.response.isSent
      = slot.response.isSent ∧
    (handlePoppedItem c s slot).2.sendEntry.response.sendFailed
      = slot.response.sendFailed ∧
    (handlePoppedItem c s slot).2.sendExit.req = slot.req ∧
    ((slot.req.sendOutcome = .ok ∧
        (handlePoppedItem c s slot).2.sendExit.response
          = { (handlePoppedItem c s slot).2.sendEntry.response with
                isSent := true }) ∨
      ((handlePoppedItem c s slot).2.sendExit.response
          = { (handlePoppedItem c s slot).2.sendEntry.response with
                sendFailed := true }) ∨
      (∃ code, slot.req.sendOutcome = .ioSystemError code ∧
        (handlePoppedItem c s slot).2.sendExit.response
          = (handlePoppedItem c s slot).2.sendEntry.response)) := by
  cases c <;> cases h1 : slot.req.handlerOutcome <;>
    by_cases hv : s.isResponseChainValid = true <;>
    by_cases hs : s.socketOpen = true <;>
    cases h2 : slot.req.sendOutcome <;>
    simp [handlePoppedItem, HandleQueueItem, SendResponse, h1, h2, hv, hs]

theorem ProcessResponses_zero (cancel : Nat → Bool) (i : Nat) (s : St) :
    ProcessResponses cancel i 0 s = (s, []) := rfl

theorem ProcessResponses_empty (cancel : Nat → Bool) (i fuel : Nat) (s : St)
    (h : s.queue = []) : ProcessResponses cancel i fuel s = (s, []) := by
  cases fuel with
  | zero => rfl
  | succ fuel => simp [ProcessResponses, h]

theorem ProcessResponses_cons (cancel : Nat → Bool) (i fuel : Nat) (s : St)
    (slot : Slot) (rest : List Slot) (h : s.queue = slot :: rest) :
    ProcessResponses cancel i (fuel + 1) s =
      ((ProcessResponses cancel (i + 1) fuel
          (handlePoppedItem (cancel i) { s with queue := rest } slot).1).1,
        (handlePoppedItem (cancel i) { s with queue := rest } slot).2 ::
          (ProcessResponses cancel (i + 1) fuel
            (handlePoppedItem (cancel i) { s with queue := rest } slot).1).2) := by
  simp [ProcessResponses, h]

/-- Behaviour of one `ProcessResponses` call: it pops and processes exactly
the first `fuel` queued slots in FIFO order, leaves the rest queued, keeps
the reader-owned and connection-owned fields intact, appends one decrement
per processed slot to `decLog`, and adjusts the two request counters by the
number of processed slots. -/
theorem ProcessResponses_spec (cancel : Nat → Bool) (fuel : Nat) :
    ∀ (i : Nat) (s : St),
      ((ProcessResponses cancel i fuel s).2.map fun it => it.popped)
        = s.queue.take fuel ∧
      (ProcessResponses cancel i fuel s).1.queue = s.queue.drop fuel ∧
      (ProcessResponses cancel i fuel s).1.incLog = s.incLog ∧
      (ProcessResponses cancel i fuel s).1.decLog
        = s.decLog
          ++ ((ProcessResponses cancel i fuel s).2.map
                fun it => it.popped.req.id) ∧
      (ProcessResponses cancel i fuel s).1.isAcceptingRequests
        = s.isAcceptingRequests ∧
      (ProcessResponses cancel i fuel s).1.socketOpen = s.socketOpen ∧
      (ProcessResponses cancel i fuel s).1.queueClosed = s.queueClosed ∧
      (ProcessResponses cancel i fuel s).1.activeConnections
        = s.activeConnections ∧
      (ProcessResponses cancel i fuel s).1.connectionsClosed
        = s.connectionsClosed ∧
      (ProcessResponses cancel i fuel s).1.onCloseCount = s.onCloseCount ∧
      (ProcessResponses cancel i fuel s).1.activeRequestCount
        = s.activeRequestCount
          - ((ProcessResponses cancel i fuel s).2.length : Int) ∧
      (ProcessResponses cancel i fuel s).1.requestsProcessedCount
        = s.requestsProcessedCount
          + (ProcessResponses cancel i fuel s).2.length := by
  induction fuel with
  | zero =>
    intro i s
    simp [ProcessResponses_zero]
  | succ fuel ih =>
    intro i s
    cases hq : s.queue with
    | nil =>
      rw [ProcessResponses_empty cancel i (fuel + 1) s hq]
      simp [hq]
    | cons slot rest =>
      rw [ProcessResponses_cons cancel i fuel s slot rest hq]
      obtain ⟨hh1, hh2, hh3, hh4, hh5, hh6, hh7, hh8, hh9, hh10, hh11, _,
        hh13, _⟩ :=
        handlePoppedItem_spec (cancel i) { s with queue := rest } slot
      obtain ⟨ih1, ih2, ih3, ih4, ih5, ih6, ih7, ih8, ih9, ih10, ih11, ih12⟩ :=
        ih (i + 1) (handlePoppedItem (cancel i) { s with queue := rest } slot).1
      refine ⟨?_, ?_, ?_, ?_, ?_, ?_, ?_, ?_, ?_, ?_, ?_, ?_⟩
      · simp only [List.map_cons, ih1, hh1, hh13]
        simp [hq]
      · simp only [ih2, hh1]
        simp [hq]
      · simp only [ih3, hh2]
      · simp only [ih4, hh3, hh13, List.map_cons]
        simp
      · simp only [ih5, hh4]
      · simp only [ih6, hh5]
      · simp only [ih7, hh6]
      · simp only [ih8, hh7]
      · simp only [ih9, hh8]
      · simp only [ih10, hh9]
      · simp only [ih11, hh10, List.length_cons]
        push_cast
        ring
      · simp only [ih12, hh11, List.length_cons]
        ring

/-- `ProcessResponses` invokes `response.SendResponse(peer_socket_)` for a
subsequence of the popped slots, in pop order (a slot is skipped exactly when
the chain is invalid or the socket closed at its turn). -/
theorem ProcessResponses_sendCalls (cancel : Nat → Bool) (fuel : Nat) :
    ∀ (i : Nat) (s : St),
      ∃ d, (ProcessResponses cancel i fuel s).1.sendCalls
          = s.sendCalls ++ d ∧
        d.Sublist
          ((ProcessResponses cancel i fuel s).2.map
            fun it => it.popped.req.id) := by
  induction fuel with
  | zero =>
    intro i s
    exact ⟨[], by simp [ProcessResponses_zero]⟩
  | succ fuel ih =>
    intro i s
    cases hq : s.queue with
    | nil =>
      rw [ProcessResponses_empty cancel i (fuel + 1) s hq]
      exact ⟨[], by simp⟩
    | cons slot rest =>
      rw [ProcessResponses_cons cancel i fuel s slot rest hq]
      obtain ⟨_, _, _, _, _, _, _, _, _, _, _, hh12, hh13, _⟩ :=
        handlePoppedItem_spec (cancel i) { s with queue := rest } slot
      obtain ⟨d, hd, hsub⟩ :=
        ih (i + 1) (handlePoppedItem (cancel i) { s with queue := rest } slot).1
      cases hh12 with
      | inl hnone =>
        refine ⟨d, ?_, ?_⟩
        · rw [hd, hnone]
        · simp only [List.map_cons, hh13]
          exact hsub.cons slot.req.id
      | inr hsome =>
        refine ⟨slot.req.id :: d, ?_, ?_⟩
        · rw [hd, hsome]
          simp
        · simp only [List.map_cons, hh13]
          exact hsub.cons₂ slot.req.id

/-- Per-slot facts about every item a `ProcessResponses` call processes: the
slot was in the queue; it reaches the send path with its original request and
its `is_sent` / `send_failed` flags unchanged; and its final response is the
entry response with `isSent` set, or with `sendFailed` set, or — only when
`response.SendResponse` threw an `IoSystemError` — completely unchanged. -/
theorem ProcessResponses_items (cancel : Nat → Bool) (fuel : Nat) :
    ∀ (i : Nat) (s : St),
      ∀ it ∈ (ProcessResponses cancel i fuel s).2,
        it.popped ∈ s.queue ∧
        it.sendEntry.req = it.popped.req ∧
        it.sendEntry.response.isSent = it.popped.response.isSent ∧
        it.sendEntry.response.sendFailed = it.popped.response.sendFailed ∧
        it.sendExit.req = it.popped.req ∧
        ((it.popped.req.sendOutcome = .ok ∧
            it.sendExit.response
              = { it.sendEntry.response with isSent := true }) ∨
          (it.sendExit.response
              = { it.sendEntry.response with sendFailed := true }) ∨
          (∃ code, it.popped.req.sendOutcome = .ioSystemError code ∧
            it.sendExit.response = it.sendEntry.response)) := by
  induction fuel with
  | zero =>
    intro i s it hit
    simp [ProcessResponses_zero] at hit
  | succ fuel ih =>
    intro i s it hit
    cases hq : s.queue with
    | nil =>
      rw [ProcessResponses_empty cancel i (fuel + 1) s hq] at hit
      simp at hit
    | cons slot rest =>
      rw [ProcessResponses_cons cancel i fuel s slot rest hq] at hit
      obtain ⟨_, _, _, _, _, _, _, _, _, _, _, _, hh13, hh14, hh15, hh16,
        hh17, hh18⟩ :=
        handlePoppedItem_spec (cancel i) { s with queue := rest } slot
      rcases List.mem_cons.mp hit with hhead | htail
      · subst hhead
        refine ⟨?_, hh14, hh15, hh16, hh17, ?_⟩
        · rw [hh13]
          exact List.mem_cons_self slot rest
        · rw [hh13]
          exact hh18
      · obtain ⟨hmem, h2, h3, h4, h5, h6⟩ :=
          ih (i + 1)
            (handlePoppedItem (cancel i) { s with queue := rest } slot).1
            it htail
        refine ⟨?_, h2, h3, h4, h5, h6⟩
        have hqq :
            (handlePoppedItem (cancel i) { s with queue := rest } slot).1.queue
              = rest :=
          (handlePoppedItem_spec (cancel i) { s with queue := rest } slot).1
        rw [hqq] at hmem
        exact List.mem_cons_of_mem slot hmem

theorem Shutdown_state (cb : Bool) (s : St) :
    (Shutdown cb s).1 =
      { s with
          socketOpen := false,
          activeConnections := s.activeConnections - 1,
          connectionsClosed := s.connectionsClosed + 1,
          onCloseCount := s.onCloseCount + (if cb then 1 else 0) } := by
  cases cb <;> simp [Shutdown]

theorem Shutdown_steps (cb : Bool) (s : St) :
    (Shutdown cb s).2 =
      [ShutdownStep.closeSocket, .updateConnectionCounters]
        ++ (if cb then [ShutdownStep.invokeOnClose] else [])
        ++ [ShutdownStep.assertQueueEmpty (s.queue.length == 0),
            .detachWriterTask] := by
  cases cb <;> simp [Shutdown]

/-- Combined behaviour of the writer task (both `ProcessResponses` passes and
the final `Shutdown`): every slot in the queue is popped and processed, in
FIFO order; the queue ends empty; the socket ends closed; the connection
counters and `on_close` are updated; `decLog` shows one decrement per queued
slot, in order; the send calls hit the wire in FIFO order. -/
theorem writerTask_spec (cancel : Nat → Bool) (k : Nat) (cb : Bool) (s : St) :
    ((writerTask cancel k cb s).2.1.map fun it => it.popped) = s.queue ∧
    (writerTask cancel k cb s).1.queue = [] ∧
    (writerTask cancel k cb s).1.socketOpen = false ∧
    (writerTask cancel k cb s).1.incLog = s.incLog ∧
    (writerTask cancel k cb s).1.decLog
      = s.decLog ++ (s.queue.map fun sl => sl.req.id) ∧
    (writerTask cancel k cb s).1.activeRequestCount
      = s.activeRequestCount - (s.queue.length : Int) ∧
    (writerTask cancel k cb s).1.requestsProcessedCount
      = s.requestsProcessedCount + s.queue.length ∧
    (writerTask cancel k cb s).1.activeConnections
      = s.activeConnections - 1 ∧
    (writerTask cancel k cb s).1.connectionsClosed
      = s.connectionsClosed + 1 ∧
    (writerTask cancel k cb s).1.onCloseCount
      = s.onCloseCount + (if cb then 1 else 0) ∧
    (writerTask cancel k cb s).2.2
      = [ShutdownStep.closeSocket, .updateConnectionCounters]
          ++ (if cb then [ShutdownStep.invokeOnClose] else [])
          ++ [ShutdownStep.assertQueueEmpty true, .detachWriterTask] ∧
    (∃ d, (writerTask cancel k cb s).1.sendCalls = s.sendCalls ++ d ∧
      d.Sublist (s.queue.map fun sl => sl.req.id)) := by
  obtain ⟨a1, b1, c1, d1, e1, f1, g1, h1, i1, j1, k1, l1⟩ :=
    ProcessResponses_spec cancel k 0 s
  obtain ⟨a2, b2, c2, d2, e2, f2, g2, h2, i2, j2, k2, l2⟩ :=
    ProcessResponses_spec cancel (ProcessResponses cancel 0 k s).1.queue.length
      (ProcessResponses cancel 0 k s).2.length (ProcessResponses cancel 0 k s).1
  obtain ⟨d1', hsc1, hsub1⟩ := ProcessResponses_sendCalls cancel k 0 s
  obtain ⟨d2', hsc2, hsub2⟩ :=
    ProcessResponses_sendCalls cancel
      (ProcessResponses cancel 0 k s).1.queue.length
      (ProcessResponses cancel 0 k s).2.length (ProcessResponses cancel 0 k s).1
  have hq1 : (ProcessResponses cancel 0 k s).1.queue = s.queue.drop k := b1
  have hpop2 :
      ((ProcessResponses cancel (ProcessResponses cancel 0 k s).2.length
          (ProcessResponses cancel 0 k s).1.queue.length
          (ProcessResponses cancel 0 k s).1).2.map fun it => it.popped)
        = s.queue.drop k := by
    rw [a2, hq1, List.take_length]
  have hq2 :
      (ProcessResponses cancel (ProcessResponses cancel 0 k s).2.length
          (ProcessResponses cancel 0 k s).1.queue.length
          (ProcessResponses cancel 0 k s).1).1.queue = [] := by
    rw [b2, hq1, List.drop_length]
  have m1 : ((ProcessResponses cancel 0 k s).2.map fun it => it.popped.req.id)
      = ((s.queue.take k).map fun sl => sl.req.id) := by
    rw [← a1, List.map_map]
    rfl
  have m2 : ((ProcessResponses cancel (ProcessResponses cancel 0 k s).2.length
        (ProcessResponses cancel 0 k s).1.queue.length
        (ProcessResponses cancel 0 k s).1).2.map fun it => it.popped.req.id)
      = ((s.queue.drop k).map fun sl => sl.req.id) := by
    rw [← hpop2, List.map_map]
    rfl
  have hlen : (ProcessResponses cancel 0 k s).2.length
      + (ProcessResponses cancel (ProcessResponses cancel 0 k s).2.length
          (ProcessResponses cancel 0 k s).1.queue.length
          (ProcessResponses cancel 0 k s).1).2.length
      = s.queue.length := by
    have e1' := congrArg List.length a1
    have e2' := congrArg List.length hpop2
    simp only [List.length_map] at e1' e2'
    rw [List.length_take] at e1'
    rw [List.length_drop] at e2'
    omega
  simp only [writerTask]
  rw [Shutdown_state, Shutdown_steps]
  refine ⟨?_, ?_, ?_, ?_, ?_, ?_, ?_, ?_, ?_, ?_, ?_, ?_⟩
  · simp only [List.map_append, a1, hpop2]
    exact List.take_append_drop k s.queue
  · simpa using hq2
  · simp
  · simp only [St.incLog]
    rw [c2, c1]
  · simp only [St.decLog]
    rw [d2, d1, m1, m2, List.append_assoc, ← List.map_append,
      List.take_append_drop]
  · simp only [St.activeRequestCount]
    rw [k2, k1, ← hlen]
    push_cast
    ring
  · simp only [St.requestsProcessedCount]
    rw [l2, l1, ← hlen]
    ring
  · simp only [St.activeConnections]
    rw [h2, h1]
  · simp only [St.connectionsClosed]
    rw [i2, i1]
  · simp only [St.onCloseCount]
    rw [j2, j1]
  · rw [hq2]
    simp
  · refine ⟨d1' ++ d2', ?_, ?_⟩
    · simp only [St.sendCalls]
      rw [hsc2, hsc1, List.append_assoc]
    · rw [m1] at hsub1
      rw [m2] at hsub2
      have := hsub1.append hsub2
      rwa [← List.map_append, List.take_append_drop] at this

/-- The per-slot facts of `ProcessResponses_items`, lifted to the whole
writer task (both drain passes). -/
theorem writerTask_items (cancel : Nat → Bool) (k : Nat) (cb : Bool) (s : St) :
    ∀ it ∈ (writerTask cancel k cb s).2.1,
      it.popped ∈ s.queue ∧
      it.sendEntry.req = it.popped.req ∧
      it.sendEntry.response.isSent = it.popped.response.isSent ∧
      it.sendEntry.response.sendFailed = it.popped.response.sendFailed ∧
      it.sendExit.req = it.popped.req ∧
      ((it.popped.req.sendOutcome = .ok ∧
          it.sendExit.response
            = { it.sendEntry.response with isSent := true }) ∨
        (it.sendExit.response
            = { it.sendEntry.response with sendFailed := true }) ∨
        (∃ code, it.popped.req.sendOutcome = .ioSystemError code ∧
          it.sendExit.response = it.sendEntry.response)) := by
  intro it hit
  simp only [writerTask] at hit
  rcases List.mem_append.mp hit with hmem | hmem
  · exact ProcessResponses_items cancel k 0 s it hmem
  · obtain ⟨hq, h2, h3, h4, h5, h6⟩ :=
      ProcessResponses_items cancel
        (ProcessResponses cancel 0 k s).1.queue.length
        (ProcessResponses cancel 0 k s).2.length
        (ProcessResponses cancel 0 k s).1 it hmem
    refine ⟨?_, h2, h3, h4, h5, h6⟩
    have hq1 : (ProcessResponses cancel 0 k s).1.queue = s.queue.drop k :=
      (ProcessResponses_spec cancel k 0 s).2.1
    rw [hq1] at hq
    exact List.mem_of_mem_drop hq

theorem listenLoop_graceful_not_accepting (s : St) (evs : List RecvEvent) :
    (listenLoop s evs).2 = .graceful →
      (listenLoop s evs).1.isAcceptingRequests = false := by
  induction evs generalizing s with
  | nil =>
    rw [listenLoop_nil]
    by_cases ha : s.isAcceptingRequests <;> simp [ha]
  | cons ev rest ih =>
    by_cases ha : s.isAcceptingRequests = true
    · cases ev with
      | data rs parseOk =>
        cases parseOk with
        | true =>
          rw [listenLoop_data_ok s rs rest ha]
          exact ih _
        | false =>
          rw [listenLoop_data_bad s rs rest ha]
          exact ih _
      | closed => rw [listenLoop_closed s rest ha]; simp
      | ioCancelled => rw [listenLoop_ioCancelled s rest ha]; simp
      | ioSystemError code =>
        rw [listenLoop_ioSystemError s code rest ha]; simp
      | otherException => rw [listenLoop_otherException s rest ha]; simp
    · have ha' : s.isAcceptingRequests = false := by simpa using ha
      rw [listenLoop_cons_not_accepting s ev rest ha']
      intro
      exact ha'

/-! ## Concrete fixtures used in counterexamples and witnesses -/

/-- An ordinary request: handler succeeds, response send succeeds. -/
def reqOk : Request :=
  { id := 5, isFinal := false, handlerOutcome := .success, sendOutcome := .ok }

/-- A request with `Connection: close` semantics (`IsFinal()`). -/
def reqFinal : Request :=
  { id := 6, isFinal := true, handlerOutcome := .success, sendOutcome := .ok }

/-- A request whose `response.SendResponse` throws `IoSystemError` with
`broken_pipe`. -/
def reqBrokenPipe : Request :=
  { id := 1, isFinal := false, handlerOutcome := .success,
    sendOutcome := .ioSystemError broken_pipe }

/-- A request whose handler task throws an unhandled `std::exception`. -/
def reqCrash : Request :=
  { id := 2, isFinal := false, handlerOutcome := .otherException,
    sendOutcome := .ok }

/-- A cancellation token that never fires. -/
def noCancel : Nat → Bool := fun _ => false

/-- A second ordinary request, distinguishable from `reqOk`. -/
def reqOk2 : Request :=
  { id := 9, isFinal := false, handlerOutcome := .success, sendOutcome := .ok }

/-- A connection state whose reader already stopped accepting requests. -/
def stNA : St := { isAcceptingRequests := false }

/-- A connection state whose queue consumer side is gone, so `Push` fails. -/
def stClosedQ : St := { queueClosed := true }

/-- Receive script: one ordinary request, then peer half-close. -/
def evsOk : List RecvEvent := [.data [reqOk] true, .closed]

/-- Receive script: one request whose send will hit `broken_pipe`, then peer
half-close. -/
def evsBP : List RecvEvent := [.data [reqBrokenPipe] true, .closed]

/-- Receive script: a single final request. -/
def evsFinal : List RecvEvent := [.data [reqFinal] true]

/-- The fresh slot the reader builds for `reqOk`. -/
def slotOk : Slot := { req := reqOk }

/-- The processed record for `reqOk` on the happy path. -/
def itOk : ProcessedItem :=
  { popped := slotOk
    sendEntry := slotOk
    sendExit :=
      { req := reqOk, response := { isSent := true },
        startSendTimeSet := true, finishSendTimeSet := true,
        accessLogsWritten := true }
    sendLog := none }

/-! ## The claims -/

theorem connectionRun_eq (evs : List RecvEvent) (cancel : Nat → Bool)
    (k : Nat) (cb : Bool) :
    connectionRun evs cancel k cb =
      (ListenForRequests {} evs,
        writerTask cancel k cb (ListenForRequests {} evs).state) := rfl

/-- C1: For every connection, responses are sent to the peer in the exact
order their requests were parsed: the writer (`ProcessResponses`) pops
`RequestSlot`s in the FIFO order the reader pushed them (the popped sequence
equals the queue), the pushed sequence is an order-preserving subsequence of
the parse order, and the wire sends (`sendCalls`) follow the pop order, so a
later request's response is never sent before an earlier one's. -/
theorem C1_responses_sent_in_parse_order (evs : List RecvEvent)
    (cancel : Nat → Bool) (k : Nat) (cb : Bool) :
    (((connectionRun evs cancel k cb).2.2.1.map fun it => it.popped)
        = (connectionRun evs cancel k cb).1.state.queue) ∧
    ((queueIds (connectionRun evs cancel k cb).1.state).Sublist
        (parsedIds evs)) ∧
    ((connectionRun evs cancel k cb).2.1.sendCalls.Sublist
        (queueIds (connectionRun evs cancel k cb).1.state)) := by
  obtain ⟨w1, w2, w3, w4, w5, w6, w7, w8, w9, w10, w11, w12⟩ :=
    writerTask_spec cancel k cb (ListenForRequests {} evs).state
  obtain ⟨r1, r2, r3, r4, r5, r6, r7, r8, r9, r10, r11, r12⟩ :=
    ListenForRequests_preserves evs
  refine ⟨w1, ?_, ?_⟩
  · obtain ⟨d, hd, hsub⟩ := listenLoop_queue_delta {} evs
    have hq : (ListenForRequests {} evs).state.queue = d := by
      show (listenLoop {} evs).1.queue = d
      rw [hd]
      rfl
    show ((ListenForRequests {} evs).state.queue.map
      fun sl => sl.req.id).Sublist (parsedIds evs)
    rw [hq]
    exact hsub
  · obtain ⟨d, hd, hsub⟩ := w12
    show (writerTask cancel k cb
      (ListenForRequests {} evs).state).1.sendCalls.Sublist
        (queueIds (ListenForRequests {} evs).state)
    rw [hd, r5]
    simpa [queueIds] using hsub

/-- C8: After `Connection::Shutdown()` runs (at the end of the writer task),
the peer socket is closed, the pipeline is empty, `on_close` was invoked at
most once, the connection counters moved by one, and the shutdown steps
happened in the order: close socket, update `active_connections` /
`connections_closed`, invoke `on_close` (when registered), assert the
pipeline empty (which passes), detach the writer task handle. -/
theorem C8_shutdown_sequence (evs : List RecvEvent) (cancel : Nat → Bool)
    (k : Nat) (cb : Bool) :
    (connectionRun evs cancel k cb).2.1.socketOpen = false ∧
    (connectionRun evs cancel k cb).2.1.queue = [] ∧
    (connectionRun evs cancel k cb).2.1.onCloseCount ≤ 1 ∧
    (connectionRun evs cancel k cb).2.1.activeConnections = 0 ∧
    (connectionRun evs cancel k cb).2.1.connectionsClosed = 1 ∧
    (connectionRun evs cancel k cb).2.2.2
      = [ShutdownStep.closeSocket, .updateConnectionCounters]
          ++ (if cb then [ShutdownStep.invokeOnClose] else [])
          ++ [ShutdownStep.assertQueueEmpty true, .detachWriterTask] := by
  obtain ⟨w1, w2, w3, w4, w5, w6, w7, w8, w9, w10, w11, w12⟩ :=
    writerTask_spec cancel k cb (ListenForRequests {} evs).state
  obtain ⟨r1, r2, r3, r4, r5, r6, r7, r8, r9, r10, r11, r12⟩ :=
    ListenForRequests_preserves evs
  refine ⟨w3, w2, ?_, ?_, ?_, w11⟩
  · show (writerTask cancel k cb
      (ListenForRequests {} evs).state).1.onCloseCount ≤ 1
    rw [w10, r9]
    cases cb <;> simp
  · show (writerTask cancel k cb
      (ListenForRequests {} evs).state).1.activeConnections = 0
    rw [w8, r7]
    ring
  · show (writerTask cancel k cb
      (ListenForRequests {} evs).state).1.connectionsClosed = 1
    rw [w9, r8]

/-- C9: whenever the writer passes a popped slot to `SendResponse`, that
slot's response is not yet sent — the `UASSERT(!response.IsSent())`
precondition holds — and each pushed slot reaches the send path exactly once
(the sequence of processed slots is exactly the queue). -/
theorem C9_response_unsent_at_send (evs : List RecvEvent)
    (cancel : Nat → Bool) (k : Nat) (cb : Bool) :
    (((connectionRun evs cancel k cb).2.2.1.map fun it => it.popped)
        = (connectionRun evs cancel k cb).1.state.queue) ∧
    ∀ it ∈ (connectionRun evs cancel k cb).2.2.1,
      it.sendEntry.response.isSent = false := by
  obtain ⟨w1, _, _, _, _, _, _, _, _, _, _, _⟩ :=
    writerTask_spec cancel k cb (ListenForRequests {} evs).state
  obtain ⟨_, _, _, _, _, _, _, _, _, _, _, r12⟩ :=
    ListenForRequests_preserves evs
  refine ⟨w1, ?_⟩
  intro it hit
  obtain ⟨hmem, _, h3, _, _, _⟩ :=
    writerTask_items cancel k cb (ListenForRequests {} evs).state it hit
  have hfresh := congrArg (fun sl => sl.response.isSent) (r12 it.popped hmem)
  simp only at hfresh
  rw [h3, hfresh]

/-- C10: the writer task performs a second drain pass: its first
`ProcessResponses` call pops the first `k` slots (wherever cancellation cut
it short), the second call pops every remaining slot, so together every
pushed `RequestSlot` is popped and taken through `HandleQueueItem` and
`SendResponse` (one recorded decrement per slot, in order) before `Shutdown`
runs — whose pipeline-empty assertion therefore passes. -/
theorem C10_writer_drains_before_shutdown (evs : List RecvEvent)
    (cancel : Nat → Bool) (k : Nat) (cb : Bool) :
    ((ProcessResponses cancel 0 k
        (connectionRun evs cancel k cb).1.state).2.map fun it => it.popped)
      = (connectionRun evs cancel k cb).1.state.queue.take k ∧
    ((ProcessResponses cancel
        (ProcessResponses cancel 0 k
          (connectionRun evs cancel k cb).1.state).2.length
        (ProcessResponses cancel 0 k
          (connectionRun evs cancel k cb).1.state).1.queue.length
        (ProcessResponses cancel 0 k
          (connectionRun evs cancel k cb).1.state).1).2.map
        fun it => it.popped)
      = (connectionRun evs cancel k cb).1.state.queue.drop k ∧
    (((connectionRun evs cancel k cb).2.2.1.map fun it => it.popped)
      = (connectionRun evs cancel k cb).1.state.queue) ∧
    (connectionRun evs cancel k cb).2.1.decLog
      = queueIds (connectionRun evs cancel k cb).1.state ∧
    (connectionRun evs cancel k cb).2.2.2
      = [ShutdownStep.closeSocket, .updateConnectionCounters]
          ++ (if cb then [ShutdownStep.invokeOnClose] else [])
          ++ [ShutdownStep.assertQueueEmpty true, .detachWriterTask] := by
  obtain ⟨w1, w2, w3, w4, w5, w6, w7, w8, w9, w10, w11, w12⟩ :=
    writerTask_spec cancel k cb (ListenForRequests {} evs).state
  obtain ⟨r1, r2, r3, r4, r5, r6, r7, r8, r9, r10, r11, r12⟩ :=
    ListenForRequests_preserves evs
  have hpass1 :=
    (ProcessResponses_spec cancel k 0 (ListenForRequests {} evs).state).1
  have hq1 :=
    (ProcessResponses_spec cancel k 0 (ListenForRequests {} evs).state).2.1
  simp only [connectionRun_eq]
  refine ⟨hpass1, ?_, w1, ?_, w11⟩
  · rw [(ProcessResponses_spec cancel
      (ProcessResponses cancel 0 k (ListenForRequests {} evs).state).1.queue.length
      (ProcessResponses cancel 0 k (ListenForRequests {} evs).state).2.length
      (ProcessResponses cancel 0 k (ListenForRequests {} evs).state).1).1,
      hq1, List.take_length]
  · rw [w5, r4]
    rfl

/-- C9 witness: on the concrete run `evsOk` the processed item `itOk` is in
the writer's output and its response was unsent when passed to the send
path. -/
theorem C9_witness :
    itOk ∈ (connectionRun evsOk noCancel 0 false).2.2.1 ∧
    itOk.sendEntry.response.isSent = false :=
  ⟨by decide,
    (C9_response_unsent_at_send evsOk noCancel 0 false).2 itOk (by decide)⟩

/-- C2 counterexample: on a run whose only request's `response.SendResponse`
throws an `IoSystemError` with `broken_pipe`, the request leaves the pipeline
with `is_sent = false` and `send_failed = false` — neither flag is set, the
error is only logged (at warning level).  This falsifies "exactly one of
`response.is_sent` or `response.send_failed` is true ... including when
`response.send` throws an I/O error such as `broken_pipe`". -/
theorem C2_counterexample :
    ((connectionRun evsBP noCancel 0 false).2.2.1.map fun it =>
        (it.sendExit.response.isSent, it.sendExit.response.sendFailed))
      = [(false, false)] ∧
    ((connectionRun evsBP noCancel 0 false).2.2.1.map fun it => it.sendLog)
      = [some LogLevel.warning] := by
  decide

/-- C2 (amended): for every request popped by the writer, after
`SendResponse` completes exactly one of `response.is_sent` or
`response.send_failed` is true — except when `response.send` threw an
`IoSystemError` (e.g. `broken_pipe`), in which case the error is only logged
and the request leaves with neither flag set. -/
theorem C2_send_flags (evs : List RecvEvent) (cancel : Nat → Bool) (k : Nat)
    (cb : Bool) :
    ∀ it ∈ (connectionRun evs cancel k cb).2.2.1,
      (it.sendExit.response.isSent = true ∧
        it.sendExit.response.sendFailed = false) ∨
      (it.sendExit.response.isSent = false ∧
        it.sendExit.response.sendFailed = true) ∨
      ((∃ code, it.popped.req.sendOutcome = .ioSystemError code) ∧
        it.sendExit.response.isSent = false ∧
        it.sendExit.response.sendFailed = false) := by
  intro it hit
  obtain ⟨_, _, _, _, _, _, _, _, _, _, _, r12⟩ :=
    ListenForRequests_preserves evs
  obtain ⟨hmem, _, h3, h4, _, h6⟩ :=
    writerTask_items cancel k cb (ListenForRequests {} evs).state it hit
  have hsent := congrArg (fun sl => sl.response.isSent) (r12 it.popped hmem)
  have hfail := congrArg (fun sl => sl.response.sendFailed) (r12 it.popped hmem)
  simp only at hsent hfail
  rcases h6 with ⟨_, hA⟩ | hB | ⟨code, hco, hC⟩
  · left
    rw [hA]
    simp [h4, hfail]
  · right; left
    rw [hB]
    simp [h3, hsent]
  · right; right
    refine ⟨⟨code, hco⟩, ?_, ?_⟩
    · rw [hC, h3, hsent]
    · rw [hC, h4, hfail]

/-- C2 witness: the amended statement instantiated on the happy-path run. -/
theorem C2_send_flags_witness :
    (itOk.sendExit.response.isSent = true ∧
      itOk.sendExit.response.sendFailed = false) ∨
    (itOk.sendExit.response.isSent = false ∧
      itOk.sendExit.response.sendFailed = true) ∨
    ((∃ code, itOk.popped.req.sendOutcome = .ioSystemError code) ∧
      itOk.sendExit.response.isSent = false ∧
      itOk.sendExit.response.sendFailed = false) :=
  C2_send_flags evsOk noCancel 0 false itOk (by decide)

/-- C3 counterexample: when the reader exits because it parsed a final
request (an exit path named by the claim), the `send_stopper` scope guard was
released (`send_stopper.Release()`), so no cancellation of the writer is
requested — falsifying "on every exit path ... its scope guard requests
cancellation of the writer task". -/
theorem C3_counterexample :
    (ListenForRequests {} evsFinal).exit = .graceful ∧
    (ListenForRequests {} evsFinal).writerCancelRequested = false := by
  decide

/-- C3 (amended): the reader's scope guard requests cancellation of the
writer on the half-close, `IoCancelled`, `IoSystemError` and
other-exception exit paths; on the graceful exit path — the loop winding
down because `is_accepting_requests_` became false (malformed input, final
request, or failed push) — the guard was released and no cancellation is
requested. -/
theorem C3_guard_cancels_writer (s : St) (evs : List RecvEvent) :
    ((ListenForRequests s evs).writerCancelRequested = true ↔
      ((ListenForRequests s evs).exit = .halfClose ∨
        (ListenForRequests s evs).exit = .ioCancelled ∨
        (∃ code, (ListenForRequests s evs).exit = .ioSystemError code) ∨
        (ListenForRequests s evs).exit = .otherException)) ∧
    ((ListenForRequests s evs).exit = .graceful →
      (ListenForRequests s evs).state.isAcceptingRequests = false ∧
      (ListenForRequests s evs).writerCancelRequested = false) := by
  constructor
  · show guardFires (listenLoop s evs).2 = true ↔ _
    cases h : (listenLoop s evs).2 <;>
      simp [guardFires, ListenForRequests, h]
  · intro hg
    have hg' : (listenLoop s evs).2 = .graceful := hg
    constructor
    · exact listenLoop_graceful_not_accepting s evs hg'
    · show guardFires (listenLoop s evs).2 = false
      rw [hg']
      rfl

/-- C3 witness: the amended statement on the final-request run — the reader
wound down gracefully and did not cancel the writer. -/
theorem C3_guard_cancels_writer_witness :
    (ListenForRequests {} evsFinal).state.isAcceptingRequests = false ∧
    (ListenForRequests {} evsFinal).writerCancelRequested = false :=
  (C3_guard_cancels_writer {} evsFinal).2 (by decide)

/-- C4 counterexample: when the reader's `recv` throws an `IoSystemError`
with raw code `broken_pipe`, the code logs at error level, not at the
warning level the claim requires for `broken_pipe` (only `connection_reset`
is compared against in `ListenForRequests`). -/
theorem C4_counterexample :
    (ListenForRequests {} [.ioSystemError broken_pipe]).log
        = some LogLevel.error ∧
    (ListenForRequests {} [.ioSystemError broken_pipe]).log
        ≠ some LogLevel.warning := by
  decide

/-- C4 (amended): when the reader's `recv` throws an `IoSystemError`, the
error is logged at warning level if its raw code is `connection_reset` and
at error level otherwise (including `broken_pipe`); the reader then
terminates normally — the exception is swallowed and the scope guard still
requests the writer's cancellation. -/
theorem C4_io_error_log_level (s : St) (evs : List RecvEvent) (code : Nat)
    (h : (ListenForRequests s evs).exit = .ioSystemError code) :
    (ListenForRequests s evs).log
      = some (if code = connection_reset then LogLevel.warning else .error) ∧
    (ListenForRequests s evs).writerCancelRequested = true := by
  have h' : (listenLoop s evs).2 = .ioSystemError code := h
  constructor
  · show readerCatchLogLevel (listenLoop s evs).2 = _
    rw [h']
    rfl
  · show guardFires (listenLoop s evs).2 = true
    rw [h']
    rfl

/-- C4 witness: the amended statement on a `connection_reset` trace. -/
theorem C4_io_error_log_level_witness :
    (ListenForRequests {} [.ioSystemError connection_reset]).log
      = some (if connection_reset = connection_reset then LogLevel.warning
          else .error) ∧
    (ListenForRequests {}
        [RecvEvent.ioSystemError connection_reset]).writerCancelRequested
      = true :=
  C4_io_error_log_level {} [.ioSystemError connection_reset] connection_reset
    (by decide)

theorem onRequestSink_final (s : St) (f : Request) (hf : f.isFinal = true) :
    (onRequestSink s f).isAcceptingRequests = false := by
  by_cases ha : s.isAcceptingRequests = true
  · by_cases hqc : s.queueClosed = true
    · simp [onRequestSink, NewRequest_accepting_closed s f ha hqc]
    · have hqc' : s.queueClosed = false := by simpa using hqc
      simp [onRequestSink, NewRequest_accepting_open s f ha hqc', hf]
  · have ha' : s.isAcceptingRequests = false := by simpa using ha
    rw [onRequestSink_not_accepting s f ha']
    exact ha'

/-- C5: in the parser sink (`NewRequest`): a request arriving while
`is_accepting_requests_` is false is dropped without any state change (not
enqueued, not counted); a final request clears `is_accepting_requests_` but
is itself still enqueued (and counted); consequently, nothing the parser
delivers after a final request within the same `recv` buffer changes the
state — in particular it is never enqueued. -/
theorem C5_final_request_rule :
    (∀ (s : St) (r : Request), s.isAcceptingRequests = false →
      NewRequest s r = (s, true)) ∧
    (∀ (s : St) (r : Request), s.isAcceptingRequests = true →
      s.queueClosed = false → r.isFinal = true →
      NewRequest s r =
        ({ s with
            isAcceptingRequests := false,
            activeRequestCount := s.activeRequestCount + 1,
            incLog := s.incLog ++ [r.id],
            queue := s.queue ++ [{ req := r }] }, true)) ∧
    (∀ (s : St) (xs : List Request) (f : Request) (ys : List Request),
      f.isFinal = true →
      parseBuffer s (xs ++ f :: ys) = parseBuffer s (xs ++ [f])) := by
  refine ⟨NewRequest_not_accepting, ?_, ?_⟩
  · intro s r ha hq hf
    rw [NewRequest_accepting_open s r ha hq, hf]
    simp
  · intro s xs f ys hf
    have hsplit : xs ++ f :: ys = (xs ++ [f]) ++ ys := by simp
    rw [hsplit]
    show parseBuffer s ((xs ++ [f]) ++ ys) = parseBuffer s (xs ++ [f])
    rw [parseBuffer, List.foldl_append]
    have hstop : (parseBuffer s (xs ++ [f])).isAcceptingRequests = false := by
      rw [parseBuffer, List.foldl_append]
      exact onRequestSink_final _ f hf
    exact parseBuffer_not_accepting _ ys hstop

/-- C5 witness: the three conclusions instantiated on concrete inputs — a
dropped request after winding down, a final request still enqueued with the
flag cleared, and a buffer whose post-final tail changes nothing. -/
theorem C5_final_request_rule_witness :
    NewRequest stNA reqOk = (stNA, true) ∧
    (NewRequest ({} : St) reqFinal).1.queue = [{ req := reqFinal }] ∧
    (NewRequest ({} : St) reqFinal).1.isAcceptingRequests = false ∧
    parseBuffer ({} : St) [reqOk, reqFinal, reqCrash]
      = parseBuffer ({} : St) [reqOk, reqFinal] := by
  refine ⟨C5_final_request_rule.1 stNA reqOk rfl, ?_, ?_, ?_⟩
  · rw [C5_final_request_rule.2.1 ({} : St) reqFinal rfl rfl rfl]
    rfl
  · rw [C5_final_request_rule.2.1 ({} : St) reqFinal rfl rfl rfl]
  · exact C5_final_request_rule.2.2 ({} : St) [reqOk] reqFinal [reqCrash] rfl

/-- C6 counterexample: a request whose `producer.Push` fails (the consumer
side is gone) is incremented once by `NewRequest` (`incLog = [7]`) but is
never decremented: even after the writer fully drains and shuts down, no
decrement was recorded (`decLog = []`) and `active_request_count` stays at 1.
This falsifies "... and decremented exactly once (by the writer in
SendResponse after the send path), including when producer.Push fails". -/
theorem C6_counterexample :
    (writerTask noCancel 0 false
        (ListenForRequests stClosedQ [.data [reqOk2] true]).state).1.incLog
      = [9] ∧
    (writerTask noCancel 0 false
        (ListenForRequests stClosedQ [.data [reqOk2] true]).state).1.decLog
      = [] ∧
    St.activeRequestCount
      (writerTask noCancel 0 false
        (ListenForRequests stClosedQ [.data [reqOk2] true]).state).1 = 1 := by
  decide

/-- C6 (amended): for every `Request` actually inserted into the pipeline,
`active_request_count` is incremented exactly once (by the reader in
`NewRequest`, before the push) and decremented exactly once (by the writer
in `SendResponse` after the send path): over a whole connection the recorded
increments and decrements both list exactly the queued requests, in order,
and the counter returns to zero.  When `producer.Push` fails, the increment
still happens exactly once before the push, but the request is not inserted
and no decrement ever matches it. -/
theorem C6_request_count_accounting (evs : List RecvEvent)
    (cancel : Nat → Bool) (k : Nat) (cb : Bool) :
    (connectionRun evs cancel k cb).2.1.incLog
      = queueIds (connectionRun evs cancel k cb).1.state ∧
    (connectionRun evs cancel k cb).2.1.decLog
      = queueIds (connectionRun evs cancel k cb).1.state ∧
    (connectionRun evs cancel k cb).2.1.activeRequestCount = 0 ∧
    ∀ (s : St) (r : Request), s.isAcceptingRequests = true →
      s.queueClosed = true →
      NewRequest s r =
        ({ s with
            isAcceptingRequests := !r.isFinal,
            activeRequestCount := s.activeRequestCount + 1,
            incLog := s.incLog ++ [r.id] }, false) := by
  obtain ⟨w1, w2, w3, w4, w5, w6, w7, w8, w9, w10, w11, w12⟩ :=
    writerTask_spec cancel k cb (ListenForRequests {} evs).state
  obtain ⟨r1, r2, r3, r4, r5, r6, r7, r8, r9, r10, r11, r12⟩ :=
    ListenForRequests_preserves evs
  simp only [connectionRun_eq]
  refine ⟨?_, ?_, ?_, NewRequest_accepting_closed⟩
  · rw [w4, r10]
  · rw [w5, r4]
    rfl
  · rw [w6, r11, r10]
    simp [queueIds]

/-- C6 witness: the amended statement instantiated — the push-failure
equation at a concrete closed-queue state, and the zero final counter on a
concrete run. -/
theorem C6_request_count_accounting_witness :
    NewRequest stClosedQ reqOk2 =
      ({ stClosedQ with
          isAcceptingRequests := !reqOk2.isFinal,
          activeRequestCount := stClosedQ.activeRequestCount + 1,
          incLog := stClosedQ.incLog ++ [reqOk2.id] }, false) ∧
    (connectionRun evsOk noCancel 0 false).2.1.activeRequestCount = 0 :=
  ⟨(C6_request_count_accounting evsOk noCancel 0 false).2.2.2 stClosedQ reqOk2
      rfl rfl,
    (C6_request_count_accounting evsOk noCancel 0 false).2.2.1⟩

theorem handlePoppedItem_no_cancel (s : St) (slot : Slot)
    (hchain : s.isResponseChainValid = true)
    (hnc1 : slot.req.handlerOutcome ≠ .taskCancelled)
    (hnc2 : slot.req.handlerOutcome ≠ .waitInterrupted) :
    (handlePoppedItem false s slot).1.isResponseChainValid = true ∧
    (slot.req.sendOutcome = .ok → s.socketOpen = true →
      (handlePoppedItem false s slot).2.sendExit.response.isSent = true) ∧
    (slot.req.handlerOutcome = .otherException →
      (handlePoppedItem false s slot).2.sendExit.response.isInternalServerError
        = true) := by
  cases h1 : slot.req.handlerOutcome with
  | taskCancelled => exact absurd h1 hnc1
  | waitInterrupted => exact absurd h1 hnc2
  | success =>
    cases h2 : slot.req.sendOutcome <;>
      by_cases hs : s.socketOpen = true <;>
      simp [handlePoppedItem, HandleQueueItem, SendResponse, h1, h2, hchain,
        hs]
  | otherException =>
    cases h2 : slot.req.sendOutcome <;>
      by_cases hs : s.socketOpen = true <;>
      simp [handlePoppedItem, HandleQueueItem, SendResponse, h1, h2, hchain,
        hs]

/-- When the writer's cancellation token never fires and no queued handler
was cancelled or interrupted, the response chain stays valid throughout a
`ProcessResponses` call, every processed request whose send succeeds is
actually sent, and every crashed handler's request carries a 500. -/
theorem ProcessResponses_no_cancel (cancel : Nat → Bool) (fuel : Nat)
    (hc : ∀ j, cancel j = false) :
    ∀ (i : Nat) (s : St), s.isResponseChainValid = true →
      s.socketOpen = true →
      (∀ sl ∈ s.queue, sl.req.handlerOutcome ≠ .taskCancelled ∧
        sl.req.handlerOutcome ≠ .waitInterrupted) →
      (ProcessResponses cancel i fuel s).1.isResponseChainValid = true ∧
      ∀ it ∈ (ProcessResponses cancel i fuel s).2,
        (it.popped.req.sendOutcome = .ok →
          it.sendExit.response.isSent = true) ∧
        (it.popped.req.handlerOutcome = .otherException →
          it.sendExit.response.isInternalServerError = true) := by
  induction fuel with
  | zero =>
    intro i s hchain _ _
    rw [ProcessResponses_zero]
    exact ⟨hchain, by simp⟩
  | succ fuel ih =>
    intro i s hchain hsock hqall
    cases hq : s.queue with
    | nil =>
      rw [ProcessResponses_empty cancel i (fuel + 1) s hq]
      exact ⟨hchain, by simp⟩
    | cons slot rest =>
      rw [ProcessResponses_cons cancel i fuel s slot rest hq, hc i]
      have hslot := hqall slot (by rw [hq]; exact List.mem_cons_self slot rest)
      have hchain' : ({ s with queue := rest }).isResponseChainValid = true :=
        hchain
      obtain ⟨hl1, hl2, hl3⟩ :=
        handlePoppedItem_no_cancel { s with queue := rest } slot hchain'
          hslot.1 hslot.2
      have hs1 :
          (handlePoppedItem false { s with queue := rest } slot).1.queue
            = rest :=
        (handlePoppedItem_spec false { s with queue := rest } slot).1
      have hs5 :
          (handlePoppedItem false { s with queue := rest } slot).1.socketOpen
            = s.socketOpen :=
        (handlePoppedItem_spec false { s with queue := rest } slot).2.2.2.2.1
      have hs13 :
          (handlePoppedItem false { s with queue := rest } slot).2.popped
            = slot :=
        (handlePoppedItem_spec false
          { s with queue := rest } slot).2.2.2.2.2.2.2.2.2.2.2.2.1
      obtain ⟨ihchain, ihitems⟩ :=
        ih (i + 1) (handlePoppedItem false { s with queue := rest } slot).1
          hl1 (by rw [hs5]; exact hsock)
          (by
            rw [hs1]
            intro sl hsl
            exact hqall sl (by rw [hq]; exact List.mem_cons_of_mem slot hsl))
      refine ⟨ihchain, ?_⟩
      intro it hit
      rcases List.mem_cons.mp hit with hhead | htail
      · subst hhead
        rw [hs13]
        constructor
        · intro hok
          exact hl2 hok hsock
        · exact hl3
      · exact ihitems it htail

/-- `ProcessResponses_no_cancel` lifted to the whole writer task. -/
theorem writerTask_no_cancel (cancel : Nat → Bool) (k : Nat) (cb : Bool)
    (s : St) (hc : ∀ j, cancel j = false)
    (hchain : s.isResponseChainValid = true) (hsock : s.socketOpen = true)
    (hq : ∀ sl ∈ s.queue, sl.req.handlerOutcome ≠ .taskCancelled ∧
      sl.req.handlerOutcome ≠ .waitInterrupted) :
    (writerTask cancel k cb s).1.isResponseChainValid = true ∧
    ∀ it ∈ (writerTask cancel k cb s).2.1,
      (it.popped.req.sendOutcome = .ok →
        it.sendExit.response.isSent = true) ∧
      (it.popped.req.handlerOutcome = .otherException →
        it.sendExit.response.isInternalServerError = true) := by
  obtain ⟨h1chain, h1items⟩ :=
    ProcessResponses_no_cancel cancel k hc 0 s hchain hsock hq
  have hq1 : (ProcessResponses cancel 0 k s).1.queue = s.queue.drop k :=
    (ProcessResponses_spec cancel k 0 s).2.1
  have hs1 : (ProcessResponses cancel 0 k s).1.socketOpen = s.socketOpen :=
    (ProcessResponses_spec cancel k 0 s).2.2.2.2.2.1
  obtain ⟨h2chain, h2items⟩ :=
    ProcessResponses_no_cancel cancel
      (ProcessResponses cancel 0 k s).1.queue.length hc
      (ProcessResponses cancel 0 k s).2.length
      (ProcessResponses cancel 0 k s).1 h1chain (by rw [hs1]; exact hsock)
      (by
        rw [hq1]
        intro sl hsl
        exact hq sl (List.mem_of_mem_drop hsl))
  constructor
  · show (Shutdown cb _).1.isResponseChainValid = true
    rw [Shutdown_state]
    exact h2chain
  · intro it hit
    simp only [writerTask] at hit
    rcases List.mem_append.mp hit with hmem | hmem
    · exact h1items it hmem
    · exact h2items it hmem

/-- C7: when awaiting a handler task throws any exception other than
task-cancelled or wait-interrupted, `HandleQueueItem` marks that request as
an internal server error (a 500) and passes it on to the send path with the
response chain untouched; consequently, on a run where the writer is never
cancelled and no queued handler was cancelled or interrupted,
`is_response_chain_valid` stays true, every request whose send succeeds is
actually sent (including the one after the crash), and every crashed
handler's request carries the 500 marker. -/
theorem C7_handler_crash_isolation (evs : List RecvEvent)
    (cancel : Nat → Bool) (k : Nat) (cb : Bool)
    (hc : ∀ j, cancel j = false)
    (hq : ∀ sl ∈ (connectionRun evs cancel k cb).1.state.queue,
      sl.req.handlerOutcome ≠ .taskCancelled ∧
      sl.req.handlerOutcome ≠ .waitInterrupted) :
    (∀ (s : St) (slot : Slot), slot.req.handlerOutcome = .otherException →
      HandleQueueItem false s slot =
        (s, { slot with response :=
            { slot.response with isInternalServerError := true } })) ∧
    (connectionRun evs cancel k cb).2.1.isResponseChainValid = true ∧
    ∀ it ∈ (connectionRun evs cancel k cb).2.2.1,
      (it.popped.req.sendOutcome = .ok →
        it.sendExit.response.isSent = true) ∧
      (it.popped.req.handlerOutcome = .otherException →
        it.sendExit.response.isInternalServerError = true) := by
  obtain ⟨r1, r2, r3, _, _, _, _, _, _, _, _, _⟩ :=
    ListenForRequests_preserves evs
  simp only [connectionRun_eq] at hq ⊢
  obtain ⟨hchain, hitems⟩ :=
    writerTask_no_cancel cancel k cb (ListenForRequests {} evs).state hc r2 r3
      hq
  refine ⟨?_, hchain, hitems⟩
  intro s slot h
  simp [HandleQueueItem, h]

/-- The fresh slot the reader builds for the crashing request. -/
def slotCrash : Slot := { req := reqCrash }

/-- Receive script: a good request, a crashing one, another good one, then
peer half-close (the P6 scenario). -/
def evsCrash : List RecvEvent := [.data [reqOk, reqCrash, reqOk2] true, .closed]

/-- C7 witness: the 500-marking equation at a concrete slot and the intact
response chain on the concrete good/crash/good run. -/
theorem C7_handler_crash_isolation_witness :
    HandleQueueItem false ({} : St) slotCrash =
      ({ } , { slotCrash with response :=
          { slotCrash.response with isInternalServerError := true } }) ∧
    (connectionRun evsCrash noCancel 1 false).2.1.isResponseChainValid
      = true :=
  ⟨(C7_handler_crash_isolation evsCrash noCancel 1 false (fun _ => rfl)
      (by decide)).1 {} slotCrash rfl,
    (C7_handler_crash_isolation evsCrash noCancel 1 false (fun _ => rfl)
      (by decide)).2.1⟩

end ServerNet
